import Mathlib

/-!
Shallow embedding of `3asq-dl.py` (class `ThreeAsqProvider`): a manga
scraper with a search routine, a three-strategy chapter-discovery
fallback chain, page (image URL) extraction, and an idempotent
chapter downloader.

Modelling conventions:
* Strings from the Python code are `List Char`.
* HTML is abstracted to the data the CSS selectors would produce
  (lists of elements with their attributes), plus the raw page text
  where the code runs regular expressions over it.
* Python regular-expression searches (`re.search`) are embedded as
  executable left-most matchers specialised to the concrete patterns
  appearing in the source.  `\d` and `isalpha`/`isdigit` are modelled
  over the ASCII classes (`Char.isDigit`, `Char.isAlpha`); where a
  claim depends only on the structure of the code, the character
  classes are taken as parameters.
* Network requests are oracles passed in as arguments
  (`Except Unit _` for calls whose exceptions the code handles);
  functions that issue requests also return the list of requests made
  so that frame claims ("no AJAX call happens") are statable.
-/

namespace ThreeAsq

/-- Regex literal matching: `dropPrefixQ pat l` returns `some rest` when `pat` is a prefix of `l`,
with `rest` what follows, else `none` (matching a regex literal). -/
def dropPrefixQ : List Char → List Char → Option (List Char)
  | [], l => some l
  | _ :: _, [] => none
  | p :: ps, c :: cs => if p = c then dropPrefixQ ps cs else none

/-- Auxiliary for `splitSeg`: scan up to the first `'/'`, returning the
characters before it and the rest after it; `none` if no `'/'` occurs. -/
def segAux : List Char → Option (List Char × List Char)
  | [] => none
  | c :: cs =>
    if c = '/' then some ([], cs)
    else (segAux cs).map (fun p => (c :: p.1, p.2))

/-- Matches the regex fragment `[^/]+/`: a nonempty run of non-slash
characters followed by a slash; returns the run and the remainder. -/
def splitSeg (l : List Char) : Option (List Char × List Char) :=
  match segAux l with
  | none => none
  | some (seg, rest) => if seg.isEmpty then none else some (seg, rest)

/-- Attempt the pattern `/manga/([^/]+)/` anchored at the head of `l`
(the slug-extraction regex of `search`, line 48 of the source). -/
def matchMangaAt (l : List Char) : Option (List Char) :=
  (dropPrefixQ "/manga/".toList l).bind fun r =>
    (splitSeg r).map fun p => p.1

/-- Attempt the pattern `/manga/[^/]+/([^/]+)/` anchored at the head of
`l` (the chapter-slug regex of `_parse_chapters`, line 136). -/
def matchChapAt (l : List Char) : Option (List Char) :=
  (dropPrefixQ "/manga/".toList l).bind fun r =>
    (splitSeg r).bind fun p =>
      (splitSeg p.2).map fun q => q.1

/-- Embeds `re.search`: try the anchored matcher at each position, left to
right, returning the first success. -/
def searchFirst (m : List Char → Option (List Char)) : List Char → Option (List Char)
  | [] => m []
  | c :: cs =>
    match m (c :: cs) with
    | some r => some r
    | none => searchFirst m cs

/-- The search `re.search(r'/manga/([^/]+)/', href)`, group 1. -/
def searchMangaSlug (href : List Char) : Option (List Char) :=
  searchFirst matchMangaAt href

/-- The search `re.search(r'/manga/[^/]+/([^/]+)/', href)`, group 1. -/
def searchChapSlug (href : List Char) : Option (List Char) :=
  searchFirst matchChapAt href

/-- Substring test (`needle in hay` on Python strings). -/
def isSubstr (needle : List Char) : List Char → Bool
  | [] => needle.isEmpty
  | c :: cs => needle.isPrefixOf (c :: cs) || isSubstr needle cs

/-- An HTML anchor as the code reads it: `get('href')` may be absent,
`get_text(strip=True)` is the text. -/
structure Anchor where
  href : Option (List Char)
  text : List Char
deriving DecidableEq, Repr

/-- An element matched by the chapter selectors
(`.wp-manga-chapter, .chapter-li, .listing-chapters_wrap li`);
`anchor` is the result of `el.find('a')`. -/
structure ChapterElem where
  anchor : Option Anchor
deriving DecidableEq, Repr

/-- A chapter record as built by `_parse_chapters`. -/
structure Chapter where
  title : List Char
  slug : List Char
  url : List Char
deriving DecidableEq, Repr

/-- The body of `_parse_chapters`' loop for one element: skip when the
anchor is absent, when the href is falsy (`None` or empty) or does not
contain the manga slug, or when the chapter-slug regex fails; otherwise
build the record. -/
def parseChapterElem (manga_slug : List Char) (el : ChapterElem) : Option Chapter :=
  match el.anchor with
  | none => none
  | some a =>
    match a.href with
    | none => none
    | some href =>
      if href.isEmpty || !(isSubstr manga_slug href) then none
      else
        match searchChapSlug href with
        | none => none
        | some cslug => some ⟨a.text, cslug, href⟩

/-- The function `_parse_chapters` over the selected elements, in document order. -/
def parseChapters (manga_slug : List Char) (elements : List ChapterElem) : List Chapter :=
  elements.filterMap (parseChapterElem manga_slug)

/-! ### `get_chapters`: the three-strategy fallback chain -/

/-- Attempt `postid-(\d+)` anchored at the head of `l`: the literal
`postid-` followed by a nonempty digit run (group 1). -/
def matchPostidAt (l : List Char) : Option (List Char) :=
  (dropPrefixQ "postid-".toList l).bind fun r =>
    let ds := r.takeWhile Char.isDigit
    if ds.isEmpty then none else some ds

/-- Attempt `data-id="(\d+)"` anchored at the head of `l`: the literal
`data-id="`, a nonempty digit run (group 1), then a closing quote. -/
def matchDataIdAt (l : List Char) : Option (List Char) :=
  (dropPrefixQ "data-id=\"".toList l).bind fun r =>
    let ds := r.takeWhile Char.isDigit
    if ds.isEmpty then none
    else
      match r.dropWhile Char.isDigit with
      | '"' :: _ => some ds
      | _ => none

/-- Line 89 of the source:
`re.search(r'postid-(\d+)', html) or re.search(r'data-id="(\d+)"', html)`. -/
def postIdSearch (html : List Char) : Option (List Char) :=
  (searchFirst matchPostidAt html) <|> (searchFirst matchDataIdAt html)

/-- The manga page as the static GET delivers it: the chapter elements
the selectors find in its soup, and the raw text the post-id regexes
are run over. -/
structure Page where
  elems : List ChapterElem
  raw : List Char
deriving Repr

/-- An AJAX response: its body text (tested for length and `"0"`)
and the chapter elements its soup yields. -/
structure AjaxResp where
  text : List Char
  elems : List ChapterElem
deriving Repr

/-- The two kinds of AJAX request `get_chapters` may issue. -/
inductive AjaxReq
  | admin
  | direct
deriving DecidableEq, Repr

/-- The function `get_chapters` with an explicit request trace.  `admin` and
`direct` are oracles for the two POSTs; `.error ()` means the request
raises.  Mirrors lines 81-119 of the source: static parse first; if
empty and a post id is found, try admin-AJAX inside a `try` block whose
`else` branch issues the direct-AJAX POST; any exception is caught,
leaving the (empty) static result; the final `return chapters` applies
no reversal. -/
def get_chaptersT (manga_slug : List Char) (page : Page)
    (admin direct : Except Unit AjaxResp) : List Chapter × List AjaxReq :=
  let chapters := parseChapters manga_slug page.elems
  if chapters.isEmpty then
    match postIdSearch page.raw with
    | none => (chapters, [])
    | some _ =>
      match admin with
      | .error _ => (chapters, [.admin])
      | .ok ar =>
        if 5 < ar.text.length ∧ ar.text ≠ ['0'] then
          (parseChapters manga_slug ar.elems, [.admin])
        else
          match direct with
          | .error _ => (chapters, [.admin, .direct])
          | .ok dr => (parseChapters manga_slug dr.elems, [.admin, .direct])
  else (chapters, [])

/-- The chapter list `get_chapters` returns to its caller. -/
def get_chapters (manga_slug : List Char) (page : Page)
    (admin direct : Except Unit AjaxResp) : List Chapter :=
  (get_chaptersT manga_slug page admin direct).1

/-! ### `search` -/

/-- A search result record as built by `search`. -/
structure SearchResult where
  title : List Char
  slug : List Char
  url : List Char
deriving DecidableEq, Repr

/-- A container matched by the search selectors; `titleAnchor` is the
result of `el.select_one(".post-title h3 a, ...")`. -/
structure SearchContainer where
  titleAnchor : Option Anchor
deriving Repr

/-- The extraction loop of `search` (lines 38-61), with `seen` the
current `seen_slugs` set.  A container with no title anchor is skipped;
a title anchor whose `href` is `None` makes `re.search` raise a
`TypeError` (modelled as `.error ()`), caught by the enclosing
`try`; a non-matching href is skipped; a slug already seen is skipped;
otherwise the result is appended in source order. -/
def extractSearch (seen : List (List Char)) : List SearchContainer → Except Unit (List SearchResult)
  | [] => .ok []
  | c :: rest =>
    match c.titleAnchor with
    | none => extractSearch seen rest
    | some a =>
      match a.href with
      | none => .error ()
      | some href =>
        match searchMangaSlug href with
        | none => extractSearch seen rest
        | some slug =>
          if slug ∈ seen then extractSearch seen rest
          else (extractSearch (slug :: seen) rest).map (⟨a.text, slug, href⟩ :: ·)

/-- The function `search`: the GET and soup parse are an oracle (`.error ()` for a
network/parse exception); the whole body sits in a `try` whose handler
returns the empty list. -/
def search (fetch : Except Unit (List SearchContainer)) : List SearchResult :=
  match fetch with
  | .error _ => []
  | .ok containers =>
    match extractSearch [] containers with
    | .error _ => []
    | .ok rs => rs

/-! ### `get_pages` -/

/-- An element matched by `.wp-manga-chapter-img`, carrying its three
candidate source attributes (absent or a possibly-empty string). -/
structure ImgElem where
  dataSrc : Option (List Char)
  dataLazySrc : Option (List Char)
  src : Option (List Char)
deriving DecidableEq, Repr

/-- Python `a or b` on attribute values: keep `a` when truthy
(present and nonempty), else `b` as-is. -/
def pyOr (a b : Option (List Char)) : Option (List Char) :=
  match a with
  | some s => if s.isEmpty then b else some s
  | none => b

/-- Python `str.strip()`: drop whitespace from both ends. -/
def stripWs (l : List Char) : List Char :=
  ((l.dropWhile Char.isWhitespace).reverse.dropWhile Char.isWhitespace).reverse

/-- The loop body of `get_pages` (lines 165-169):
`src = img.get('data-src') or img.get('data-lazy-src') or img.get('src')`,
then `if src: pages.append(src.strip())`. -/
def pageOfImg (img : ImgElem) : Option (List Char) :=
  match pyOr img.dataSrc (pyOr img.dataLazySrc img.src) with
  | none => none
  | some s => if s.isEmpty then none else some (stripWs s)

/-- The function `get_pages` over the selected image elements, in page order. -/
def get_pages (imgs : List ImgElem) : List (List Char) :=
  imgs.filterMap pageOfImg

/-! ### `download_chapter` -/

/-- The character filter of the sanitization (line 178):
`c.isalpha() or c.isdigit() or c in " .-_"`.  The `isalpha`/`isdigit`
classes are parameters (Python's are Unicode-wide). -/
def keepChar (isalpha isdigit : Char → Bool) (c : Char) : Bool :=
  isalpha c || isdigit c || (c = ' ' || c = '.' || c = '-' || c = '_')

/-- Title sanitization:
`"".join([c for c in title if ...]).strip()`. -/
def sanitizeTitle (isalpha isdigit : Char → Bool) (title : List Char) : List Char :=
  stripWs (title.filter (keepChar isalpha isdigit))

/-- Python's `{:03d}` format for a nonnegative integer: zero-pad the
decimal digits to width three. -/
def pad3 (n : Nat) : List Char :=
  let s := (toString n).toList
  if s.length < 3 then List.replicate (3 - s.length) '0' ++ s else s

/-- Python `s.split('.')`: split on every dot, keeping empty pieces. -/
def splitDot : List Char → List (List Char)
  | [] => [[]]
  | c :: cs =>
    let r := splitDot cs
    if c = '.' then [] :: r
    else
      match r with
      | [] => [[c]]
      | h :: t => (c :: h) :: t

/-- The expression `url.split('.')[-1]`: the extension the downloader derives. -/
def extOf (url : List Char) : List Char :=
  (splitDot url).getLast!

/-- The file name for page index `i` (0-based): `f"{i+1:03d}.{ext}"`. -/
def pageFilename (i : Nat) (url : List Char) : List Char :=
  pad3 (i + 1) ++ '.' :: extOf url

/-- The local directory, a finite map file name ↦ byte contents. -/
def FS : Type := List (List Char × List Nat)

/-- The check `os.path.exists` on the model directory. -/
def fsExists (fs : FS) (name : List Char) : Bool :=
  (fs.lookup name).isSome

/-- The download loop of `download_chapter` (lines 186-202) from page
index `i` on.  `fetch url = some bytes` models a streamed GET answering
200 with those bytes; `none` models a non-200 status or an exception
(logged, page skipped).  Existing files are skipped before any request;
otherwise the GET is issued (recorded in the request list) and a 200
body is written.  Returns the final directory and the requested URLs. -/
def downloadLoop (fetch : List Char → Option (List Nat)) :
    Nat → List (List Char) → FS → FS × List (List Char)
  | _, [], fs => (fs, [])
  | i, url :: rest, fs =>
    let fname := pageFilename i url
    if fsExists fs fname then
      downloadLoop fetch (i + 1) rest fs
    else
      match fetch url with
      | some bytes =>
        let r := downloadLoop fetch (i + 1) rest ((fname, bytes) :: fs)
        (r.1, url :: r.2)
      | none =>
        let r := downloadLoop fetch (i + 1) rest fs
        (r.1, url :: r.2)

/-- The file-writing part of `download_chapter`, over the whole page
list (the enumeration starts at index 0). -/
def download_chapter (fetch : List Char → Option (List Nat))
    (pages : List (List Char)) (fs : FS) : FS × List (List Char) :=
  downloadLoop fetch 0 pages fs

/-! ### Specification-side characterisations

These definitions follow the spec's wording; the theorems below compare
them with the embedded code. -/

/-- The spec's inclusion condition for a chapter element: first anchor
present, href present, href contains the manga slug, and the
`/manga/<segment>/<segment>/` path pattern matches somewhere in it. -/
def includedElem (manga_slug : List Char) (el : ChapterElem) : Bool :=
  match el.anchor with
  | none => false
  | some a =>
    match a.href with
    | none => false
    | some h => isSubstr manga_slug h && (searchChapSlug h).isSome

/-- The Chapter record an included element gives rise to (total; the
default fields are never reached on included elements). -/
def chapterOfElem (el : ChapterElem) : Chapter :=
  match el.anchor with
  | none => ⟨[], [], []⟩
  | some a =>
    match a.href with
    | none => ⟨a.text, [], []⟩
    | some h => ⟨a.text, (searchChapSlug h).getD [], h⟩

/-- The manga entry a search container yields, dedup aside: title
anchor present, href present and matching the slug pattern. -/
def containerEntry (c : SearchContainer) : Option SearchResult :=
  match c.titleAnchor with
  | none => none
  | some a =>
    match a.href with
    | none => none
    | some h => (searchMangaSlug h).map fun s => ⟨a.text, s, h⟩

/-- All entries a container list yields, in document order (the `N`
manga entries of the spec's search property). -/
def yieldedEntries (cs : List SearchContainer) : List SearchResult :=
  cs.filterMap containerEntry

/-- Spec-side deduplication: keep the first occurrence of each slug in
document order, dropping later duplicates (`seen` are slugs already
taken). -/
def dedupBySlug (seen : List (List Char)) : List SearchResult → List SearchResult
  | [] => []
  | r :: rest =>
    if r.slug ∈ seen then dedupBySlug seen rest
    else r :: dedupBySlug (r.slug :: seen) rest

/-- Python truthiness of an optional string attribute. -/
def truthy : Option (List Char) → Bool
  | none => false
  | some s => !s.isEmpty

/-- The first present-and-nonempty source attribute of an image element,
in the priority order data-src, data-lazy-src, src. -/
def firstNonEmptySrc (img : ImgElem) : Option (List Char) :=
  if truthy img.dataSrc then img.dataSrc
  else if truthy img.dataLazySrc then img.dataLazySrc
  else if truthy img.src then img.src
  else none

/-- Every target file of the page list (numbered from index `i`)
already exists in the directory. -/
def allExist (fs : FS) : Nat → List (List Char) → Bool
  | _, [] => true
  | i, url :: rest => fsExists fs (pageFilename i url) && allExist fs (i + 1) rest

/-! ## Helper lemmas -/

theorem searchChapSlug_nil : searchChapSlug [] = none := rfl

theorem parseChapterElem_eq (slug : List Char) (el : ChapterElem) :
    parseChapterElem slug el =
      if includedElem slug el then some (chapterOfElem el) else none := by
  rcases el with ⟨_ | ⟨href, text⟩⟩
  · rfl
  · rcases href with _ | h
    · rfl
    · cases he : h.isEmpty
      · cases hsub : isSubstr slug h
        · simp [parseChapterElem, includedElem, chapterOfElem, he, hsub]
        · cases hsc : searchChapSlug h <;>
            simp [parseChapterElem, includedElem, chapterOfElem, he, hsub, hsc]
      · have h0 : h = [] := List.isEmpty_iff.mp he
        subst h0
        simp [parseChapterElem, includedElem, searchChapSlug_nil]

theorem stripWs_sublist (l : List Char) : (stripWs l).Sublist l := by
  have h1 : (l.dropWhile Char.isWhitespace).Sublist l := List.dropWhile_sublist _
  have h2 : ((l.dropWhile Char.isWhitespace).reverse.dropWhile Char.isWhitespace).Sublist
      (l.dropWhile Char.isWhitespace).reverse := List.dropWhile_sublist _
  have h3 := h2.reverse
  rw [List.reverse_reverse] at h3
  exact h3.trans h1

theorem pyOr_eq (a b : Option (List Char)) : pyOr a b = if truthy a then a else b := by
  cases a with
  | none => rfl
  | some s => cases hs : s.isEmpty <;> simp [pyOr, truthy, hs]

theorem pageOfImg_eq (img : ImgElem) :
    pageOfImg img = (firstNonEmptySrc img).map stripWs := by
  rcases img with ⟨d, dl, s⟩
  simp only [pageOfImg, pyOr_eq, firstNonEmptySrc]
  cases h1 : truthy d with
  | true =>
    rcases d with _ | ds
    · simp [truthy] at h1
    · have hds : ds.isEmpty = false := by simpa [truthy] using h1
      simp [h1, hds]
  | false =>
    cases h2 : truthy dl with
    | true =>
      rcases dl with _ | dls
      · simp [truthy] at h2
      · have hdls : dls.isEmpty = false := by simpa [truthy] using h2
        simp [h1, h2, hdls]
    | false =>
      cases h3 : truthy s with
      | true =>
        rcases s with _ | ss
        · simp [truthy] at h3
        · have hss : ss.isEmpty = false := by simpa [truthy] using h3
          simp [h1, h2, h3, hss]
      | false =>
        rcases s with _ | ss
        · simp [h1, h2]
        · have hss : ss.isEmpty = true := by simpa [truthy] using h3
          simp [h1, h2, h3, hss]

theorem cond_iff (t : List Char) :
    ¬(5 < t.length ∧ t ≠ ['0']) ↔ (t = ['0'] ∨ t.length ≤ 5) := by
  constructor
  · intro h
    by_cases h5 : 5 < t.length
    · left
      by_contra hne
      exact h ⟨h5, hne⟩
    · right; exact Nat.not_lt.mp h5
  · rintro (rfl | h)
    · rintro ⟨h5, _⟩
      exact absurd h5 (by decide)
    · rintro ⟨h5, _⟩
      exact absurd h5 (Nat.not_lt.mpr h)

theorem get_chaptersT_ajax (slug : List Char) (page : Page)
    (admin direct : Except Unit AjaxResp)
    (hs : parseChapters slug page.elems = [])
    (pid : List Char) (hpid : postIdSearch page.raw = some pid) :
    get_chaptersT slug page admin direct =
      match admin with
      | .error _ => ([], [.admin])
      | .ok ar =>
        if 5 < ar.text.length ∧ ar.text ≠ ['0'] then
          (parseChapters slug ar.elems, [.admin])
        else
          match direct with
          | .error _ => ([], [.admin, .direct])
          | .ok dr => (parseChapters slug dr.elems, [.admin, .direct]) := by
  simp [get_chaptersT, hs, hpid]

theorem extractSearch_ok (cs : List SearchContainer) :
    ∀ seen rs, extractSearch seen cs = Except.ok rs →
      rs = dedupBySlug seen (yieldedEntries cs) := by
  induction cs with
  | nil =>
    intro seen rs h
    simp only [extractSearch, Except.ok.injEq] at h
    simp [yieldedEntries, dedupBySlug, ← h]
  | cons c rest ih =>
    intro seen rs h
    cases hta : c.titleAnchor with
    | none =>
      simp only [extractSearch, hta] at h
      simpa [yieldedEntries, List.filterMap_cons, containerEntry, hta] using ih seen rs h
    | some a =>
      cases hh : a.href with
      | none => simp [extractSearch, hta, hh] at h
      | some href =>
        cases hms : searchMangaSlug href with
        | none =>
          simp only [extractSearch, hta, hh, hms] at h
          simpa [yieldedEntries, List.filterMap_cons, containerEntry, hta, hh, hms]
            using ih seen rs h
        | some slug =>
          simp only [extractSearch, hta, hh, hms] at h
          by_cases hseen : slug ∈ seen
          · rw [if_pos hseen] at h
            have hrec := ih seen rs h
            simpa [yieldedEntries, List.filterMap_cons, containerEntry, hta, hh, hms,
              dedupBySlug, hseen] using hrec
          · rw [if_neg hseen] at h
            cases hx : extractSearch (slug :: seen) rest with
            | error u => rw [hx] at h; simp [Except.map] at h
            | ok rs' =>
              rw [hx] at h
              simp only [Except.map, Except.ok.injEq] at h
              have hrec := ih (slug :: seen) rs' hx
              simp [yieldedEntries, List.filterMap_cons, containerEntry, hta, hh, hms,
                dedupBySlug, hseen, ← h, hrec]

theorem dedupBySlug_sublist (l : List SearchResult) :
    ∀ seen, (dedupBySlug seen l).Sublist l := by
  induction l with
  | nil => intro seen; exact List.Sublist.refl _
  | cons x rest ih =>
    intro seen
    simp only [dedupBySlug]
    by_cases hx : x.slug ∈ seen
    · rw [if_pos hx]
      exact (ih seen).trans (List.sublist_cons_self x rest)
    · rw [if_neg hx]
      exact (ih (x.slug :: seen)).cons₂ x

theorem dedupBySlug_not_seen (l : List SearchResult) :
    ∀ seen r, r ∈ dedupBySlug seen l → r.slug ∉ seen := by
  induction l with
  | nil => intro seen r h; simp [dedupBySlug] at h
  | cons x rest ih =>
    intro seen r h
    simp only [dedupBySlug] at h
    by_cases hx : x.slug ∈ seen
    · rw [if_pos hx] at h
      exact ih seen r h
    · rw [if_neg hx] at h
      rcases List.mem_cons.mp h with rfl | h'
      · exact hx
      · exact fun hseen => ih (x.slug :: seen) r h' (List.mem_cons_of_mem _ hseen)

theorem dedupBySlug_nodup (l : List SearchResult) :
    ∀ seen, ((dedupBySlug seen l).map (fun r => r.slug)).Nodup := by
  induction l with
  | nil => intro seen; simp [dedupBySlug]
  | cons x rest ih =>
    intro seen
    simp only [dedupBySlug]
    by_cases hx : x.slug ∈ seen
    · rw [if_pos hx]
      exact ih seen
    · rw [if_neg hx]
      simp only [List.map_cons, List.nodup_cons]
      refine ⟨fun hmem => ?_, ih (x.slug :: seen)⟩
      rcases List.mem_map.mp hmem with ⟨r, hr, hrs⟩
      exact dedupBySlug_not_seen rest (x.slug :: seen) r hr
        (hrs ▸ List.mem_cons_self _ _)

theorem dedupBySlug_covers (l : List SearchResult) :
    ∀ seen e, e ∈ l → e.slug ∉ seen →
      ∃ r ∈ dedupBySlug seen l, r.slug = e.slug := by
  induction l with
  | nil => intro seen e h; simp at h
  | cons x rest ih =>
    intro seen e he hns
    simp only [dedupBySlug]
    by_cases hx : x.slug ∈ seen
    · rw [if_pos hx]
      rcases List.mem_cons.mp he with rfl | h'
      · exact absurd hx hns
      · exact ih seen e h' hns
    · rw [if_neg hx]
      rcases List.mem_cons.mp he with rfl | h'
      · exact ⟨e, List.mem_cons_self _ _, rfl⟩
      · by_cases hes : e.slug = x.slug
        · exact ⟨x, List.mem_cons_self _ _, hes.symm⟩
        · have hns' : e.slug ∉ x.slug :: seen := by
            intro hmem
            rcases List.mem_cons.mp hmem with h | h
            · exact hes h
            · exact hns h
          rcases ih (x.slug :: seen) e h' hns' with ⟨r, hr, hrs⟩
          exact ⟨r, List.mem_cons_of_mem _ hr, hrs⟩

theorem downloadLoop_all_exist (fetch : List Char → Option (List Nat))
    (pages : List (List Char)) :
    ∀ i fs, allExist fs i pages = true → downloadLoop fetch i pages fs = (fs, []) := by
  induction pages with
  | nil => intro i fs _; rfl
  | cons url rest ih =>
    intro i fs h
    simp only [allExist, Bool.and_eq_true] at h
    simp only [downloadLoop]
    rw [if_pos h.1]
    exact ih (i + 1) fs h.2

/-! ## Claims -/

/-- Claim C1, counterexample: `get_chapters` does not reverse: on a page
whose static parse yields two chapters, the returned list is the parse
order itself, not its reverse. -/
theorem get_chapters_reversal_cex :
    get_chapters "m".toList
        ⟨[⟨some ⟨some "/manga/m/c1/".toList, "C1".toList⟩⟩,
          ⟨some ⟨some "/manga/m/c2/".toList, "C2".toList⟩⟩], "x".toList⟩
        (Except.error ()) (Except.error ())
      ≠ (parseChapters "m".toList
          [⟨some ⟨some "/manga/m/c1/".toList, "C1".toList⟩⟩,
           ⟨some ⟨some "/manga/m/c2/".toList, "C2".toList⟩⟩]).reverse := by
  decide

/-- Claim C1, amended: Whichever discovery strategy produced the parsed
HTML, `get_chapters` returns exactly the list `_parse_chapters`
produced on that HTML, unreversed — the caller receives the site's
newest-first order unchanged. -/
theorem get_chapters_unreversed (slug : List Char) (page : Page)
    (admin direct : Except Unit AjaxResp) :
    get_chapters slug page admin direct = parseChapters slug page.elems
    ∨ (∃ ar, admin = Except.ok ar ∧
        get_chapters slug page admin direct = parseChapters slug ar.elems)
    ∨ (∃ dr, direct = Except.ok dr ∧
        get_chapters slug page admin direct = parseChapters slug dr.elems) := by
  simp only [get_chapters, get_chaptersT]
  by_cases hE : (parseChapters slug page.elems).isEmpty
  · rw [if_pos hE]
    cases hP : postIdSearch page.raw with
    | none => left; rfl
    | some pid =>
      cases admin with
      | error u => left; rfl
      | ok ar =>
        dsimp only
        by_cases hc : 5 < ar.text.length ∧ ar.text ≠ ['0']
        · rw [if_pos hc]
          right; left
          exact ⟨ar, rfl, rfl⟩
        · rw [if_neg hc]
          cases direct with
          | error u => left; rfl
          | ok dr =>
            right; right
            exact ⟨dr, rfl, rfl⟩
  · rw [if_neg hE]
    left; rfl

/-- Claim C2: With the static parse empty and a post id found, the
direct-AJAX request happens exactly when the admin-AJAX body is `"0"`
or no longer than 5 characters; a longer, non-`"0"` body is handed to
the chapter extractor and direct-AJAX is not attempted. -/
theorem direct_ajax_trigger (slug : List Char) (page : Page) (ar : AjaxResp)
    (direct : Except Unit AjaxResp)
    (hs : parseChapters slug page.elems = [])
    (hp : (postIdSearch page.raw).isSome = true) :
    (AjaxReq.direct ∈ (get_chaptersT slug page (Except.ok ar) direct).2
        ↔ (ar.text = ['0'] ∨ ar.text.length ≤ 5))
    ∧ ((5 < ar.text.length ∧ ar.text ≠ ['0']) →
        (get_chaptersT slug page (Except.ok ar) direct).1 = parseChapters slug ar.elems) := by
  obtain ⟨pid, hpid⟩ := Option.isSome_iff_exists.mp hp
  rw [get_chaptersT_ajax slug page (Except.ok ar) direct hs pid hpid]
  dsimp only
  by_cases hc : 5 < ar.text.length ∧ ar.text ≠ ['0']
  · rw [if_pos hc]
    dsimp only
    refine ⟨⟨fun h => absurd h (by decide), fun hD => ?_⟩, fun _ => rfl⟩
    exact ((cond_iff ar.text).mpr hD hc).elim
  · rw [if_neg hc]
    have hD : ar.text = ['0'] ∨ ar.text.length ≤ 5 := (cond_iff ar.text).mp hc
    cases direct with
    | error u =>
      dsimp only
      exact ⟨⟨fun _ => hD, fun _ => by decide⟩, fun hcc => (hc hcc).elim⟩
    | ok dr =>
      dsimp only
      exact ⟨⟨fun _ => hD, fun _ => by decide⟩, fun hcc => (hc hcc).elim⟩

/-- Claim C2, witness: A concrete instance: empty static parse, post id
`1`, admin body `"123456"` (length 6, not `"0"`). -/
theorem direct_ajax_trigger_witness :
    (AjaxReq.direct ∈ (get_chaptersT "m".toList ⟨[], "postid-1 x".toList⟩
          (Except.ok ⟨"123456".toList, []⟩) (Except.error ())).2
        ↔ ("123456".toList = ['0'] ∨ "123456".toList.length ≤ 5))
    ∧ ((5 < "123456".toList.length ∧ "123456".toList ≠ ['0']) →
        (get_chaptersT "m".toList ⟨[], "postid-1 x".toList⟩
            (Except.ok ⟨"123456".toList, []⟩) (Except.error ())).1
          = parseChapters "m".toList []) :=
  direct_ajax_trigger "m".toList ⟨[], "postid-1 x".toList⟩
    ⟨"123456".toList, []⟩ (Except.error ()) rfl (by decide)

/-- Claim C3: When neither post-identifier pattern matches the raw page
and the static parse is empty, `get_chapters` issues no AJAX request of
either kind and returns the static-parse result. -/
theorem no_post_id_no_ajax (slug : List Char) (page : Page)
    (admin direct : Except Unit AjaxResp)
    (h1 : searchFirst matchPostidAt page.raw = none)
    (h2 : searchFirst matchDataIdAt page.raw = none)
    (hs : parseChapters slug page.elems = []) :
    get_chaptersT slug page admin direct = (parseChapters slug page.elems, []) := by
  have hP : postIdSearch page.raw = none := by
    simp [postIdSearch, h1, h2]
  simp [get_chaptersT, hs, hP]

/-- Claim C3, witness: A concrete page with no post-id pattern and no
chapter elements. -/
theorem no_post_id_no_ajax_witness :
    get_chaptersT "m".toList ⟨[], "no ids here".toList⟩
        (Except.error ()) (Except.error ())
      = (parseChapters "m".toList [], []) :=
  no_post_id_no_ajax "m".toList ⟨[], "no ids here".toList⟩
    (Except.error ()) (Except.error ()) (by decide) (by decide) rfl

/-- Claim C10: If the admin-AJAX POST raises, `get_chapters` catches the
exception and returns the (empty) static-parse result; the direct-AJAX
request is not attempted even though its oracle is available. -/
theorem admin_exception_suppresses_direct (slug : List Char) (page : Page)
    (direct : Except Unit AjaxResp)
    (hs : parseChapters slug page.elems = [])
    (hp : (postIdSearch page.raw).isSome = true) :
    get_chaptersT slug page (Except.error ()) direct
      = (parseChapters slug page.elems, [AjaxReq.admin]) := by
  obtain ⟨pid, hpid⟩ := Option.isSome_iff_exists.mp hp
  simp [get_chaptersT, hs, hpid]

/-- Claim C10, witness: A concrete instance where the direct oracle would
succeed, yet the admin exception leaves the empty static result. -/
theorem admin_exception_suppresses_direct_witness :
    get_chaptersT "m".toList ⟨[], "postid-7".toList⟩ (Except.error ())
        (Except.ok ⟨"chapters".toList,
          [⟨some ⟨some "/manga/m/c1/".toList, "C1".toList⟩⟩]⟩)
      = (parseChapters "m".toList [], [AjaxReq.admin]) :=
  admin_exception_suppresses_direct "m".toList ⟨[], "postid-7".toList⟩
    (Except.ok ⟨"chapters".toList,
      [⟨some ⟨some "/manga/m/c1/".toList, "C1".toList⟩⟩]⟩)
    rfl (by decide)

/-- Claim C4: On a successful extraction, `search` returns exactly one
result per distinct slug — the first occurrence in document order
(`dedupBySlug` of the yielded entries) — as a sublist of the yielded
entries (source order preserved), with pairwise-distinct slugs, length
at most the number of yielded entries, and every yielded slug
represented. -/
theorem search_dedup_distinct (cs : List SearchContainer) (rs : List SearchResult)
    (h : extractSearch [] cs = Except.ok rs) :
    search (Except.ok cs) = dedupBySlug [] (yieldedEntries cs)
    ∧ (search (Except.ok cs)).Sublist (yieldedEntries cs)
    ∧ ((search (Except.ok cs)).map (fun r => r.slug)).Nodup
    ∧ (search (Except.ok cs)).length ≤ (yieldedEntries cs).length
    ∧ ((yieldedEntries cs).all
        (fun e => (search (Except.ok cs)).any (fun r => r.slug == e.slug))) = true := by
  have hs : search (Except.ok cs) = rs := by simp [search, h]
  have h1 := extractSearch_ok cs [] rs h
  rw [hs, h1]
  refine ⟨rfl, dedupBySlug_sublist _ _, dedupBySlug_nodup _ _,
    (dedupBySlug_sublist _ _).length_le, ?_⟩
  rw [List.all_eq_true]
  intro e he
  rcases dedupBySlug_covers (yieldedEntries cs) [] e he (by simp) with ⟨r, hr, hrs⟩
  rw [List.any_eq_true]
  exact ⟨r, hr, by simp [hrs]⟩

/-- Claim C4, witness: Three containers, two sharing the slug `aa`: the
result keeps the first `aa` occurrence and `bb`, in order. -/
theorem search_dedup_distinct_witness :
    search (Except.ok
        [⟨some ⟨some "/manga/aa/".toList, "T1".toList⟩⟩,
         ⟨some ⟨some "/manga/aa/".toList, "T2".toList⟩⟩,
         ⟨some ⟨some "/manga/bb/".toList, "T3".toList⟩⟩])
      = dedupBySlug [] (yieldedEntries
        [⟨some ⟨some "/manga/aa/".toList, "T1".toList⟩⟩,
         ⟨some ⟨some "/manga/aa/".toList, "T2".toList⟩⟩,
         ⟨some ⟨some "/manga/bb/".toList, "T3".toList⟩⟩])
    ∧ (search (Except.ok
        [⟨some ⟨some "/manga/aa/".toList, "T1".toList⟩⟩,
         ⟨some ⟨some "/manga/aa/".toList, "T2".toList⟩⟩,
         ⟨some ⟨some "/manga/bb/".toList, "T3".toList⟩⟩])).Sublist (yieldedEntries
        [⟨some ⟨some "/manga/aa/".toList, "T1".toList⟩⟩,
         ⟨some ⟨some "/manga/aa/".toList, "T2".toList⟩⟩,
         ⟨some ⟨some "/manga/bb/".toList, "T3".toList⟩⟩])
    ∧ ((search (Except.ok
        [⟨some ⟨some "/manga/aa/".toList, "T1".toList⟩⟩,
         ⟨some ⟨some "/manga/aa/".toList, "T2".toList⟩⟩,
         ⟨some ⟨some "/manga/bb/".toList, "T3".toList⟩⟩])).map (fun r => r.slug)).Nodup
    ∧ (search (Except.ok
        [⟨some ⟨some "/manga/aa/".toList, "T1".toList⟩⟩,
         ⟨some ⟨some "/manga/aa/".toList, "T2".toList⟩⟩,
         ⟨some ⟨some "/manga/bb/".toList, "T3".toList⟩⟩])).length ≤ (yieldedEntries
        [⟨some ⟨some "/manga/aa/".toList, "T1".toList⟩⟩,
         ⟨some ⟨some "/manga/aa/".toList, "T2".toList⟩⟩,
         ⟨some ⟨some "/manga/bb/".toList, "T3".toList⟩⟩]).length
    ∧ ((yieldedEntries
        [⟨some ⟨some "/manga/aa/".toList, "T1".toList⟩⟩,
         ⟨some ⟨some "/manga/aa/".toList, "T2".toList⟩⟩,
         ⟨some ⟨some "/manga/bb/".toList, "T3".toList⟩⟩]).all
        (fun e => (search (Except.ok
          [⟨some ⟨some "/manga/aa/".toList, "T1".toList⟩⟩,
           ⟨some ⟨some "/manga/aa/".toList, "T2".toList⟩⟩,
           ⟨some ⟨some "/manga/bb/".toList, "T3".toList⟩⟩])).any
            (fun r => r.slug == e.slug))) = true :=
  search_dedup_distinct
    [⟨some ⟨some "/manga/aa/".toList, "T1".toList⟩⟩,
     ⟨some ⟨some "/manga/aa/".toList, "T2".toList⟩⟩,
     ⟨some ⟨some "/manga/bb/".toList, "T3".toList⟩⟩]
    [⟨"T1".toList, "aa".toList, "/manga/aa/".toList⟩,
     ⟨"T3".toList, "bb".toList, "/manga/bb/".toList⟩]
    rfl

/-- Claim C5: `search` never propagates an exception: both when the
request itself fails and when the extraction raises mid-way, the
caller receives the empty list. -/
theorem search_never_raises (fetch : Except Unit (List SearchContainer))
    (h : fetch = Except.error ()
      ∨ ∃ cs, fetch = Except.ok cs ∧ extractSearch [] cs = Except.error ()) :
    search fetch = [] := by
  rcases h with rfl | ⟨cs, rfl, hcs⟩
  · rfl
  · simp [search, hcs]

/-- Claim C5, witness: A container whose title anchor has no href makes
the slug regex raise a `TypeError`; `search` still returns `[]`. -/
theorem search_never_raises_witness :
    search (Except.ok [⟨some ⟨none, "T".toList⟩⟩]) = [] :=
  search_never_raises (Except.ok [⟨some ⟨none, "T".toList⟩⟩])
    (Or.inr ⟨[⟨some ⟨none, "T".toList⟩⟩], rfl, rfl⟩)

/-- Claim C9: Re-running the downloader when every target file (3-digit
zero-padded index dot extension) already exists issues zero network
requests and leaves the directory byte-identical. -/
theorem download_idempotent (fetch : List Char → Option (List Nat))
    (pages : List (List Char)) (fs : FS)
    (h : allExist fs 0 pages = true) :
    download_chapter fetch pages fs = (fs, []) :=
  downloadLoop_all_exist fetch pages 0 fs h

/-- Claim C9, witness: A one-page chapter whose file `001.jpg` is already
on disk: no request is issued and the directory is unchanged. -/
theorem download_idempotent_witness :
    download_chapter (fun _ => none) ["http://x/a.jpg".toList]
        [("001.jpg".toList, [7, 8])]
      = ([("001.jpg".toList, [7, 8])], []) :=
  download_idempotent (fun _ => none) ["http://x/a.jpg".toList]
    [("001.jpg".toList, [7, 8])] (by decide)

/-- Claim C6: `_parse_chapters` produces one Chapter record per chapter
element in document order, excluding exactly the elements whose first
anchor is absent, whose href is absent, whose href does not contain the
manga slug, or whose href does not match the
`/manga/<segment>/<chapter-segment>/` path pattern. -/
theorem parse_chapters_one_per_included (slug : List Char) (els : List ChapterElem) :
    parseChapters slug els = (els.filter (includedElem slug)).map chapterOfElem := by
  induction els with
  | nil => rfl
  | cons e t ih =>
    simp only [parseChapters, List.filterMap_cons, List.filter_cons] at ih ⊢
    rw [parseChapterElem_eq]
    cases hI : includedElem slug e <;> simp [hI, ih]

/-- Claim C7, counterexample: Sanitization is not the plain kept-character
subsequence: on the title `" a"` the code's `.strip()` also removes the
leading space that the character filter retains. -/
theorem sanitize_not_plain_filter_cex :
    sanitizeTitle Char.isAlpha Char.isDigit " a".toList ≠
      (" a".toList).filter (keepChar Char.isAlpha Char.isDigit) := by
  decide

/-- Claim C7, amended: Sanitization returns the subsequence of characters
that are alphanumeric, space, dot, hyphen or underscore, additionally
stripped of leading and trailing whitespace: the result is a sublist of
the kept-character subsequence, every retained character is in the kept
class, and `"Vol. 1: Chapter #5!"` sanitizes to `"Vol. 1 Chapter 5"`
(no `#`, `:` or `!`). -/
theorem sanitize_keeps_class (ia id : Char → Bool) (t : List Char) :
    (sanitizeTitle ia id t).Sublist (t.filter (keepChar ia id))
    ∧ (sanitizeTitle ia id t).all (keepChar ia id) = true
    ∧ sanitizeTitle Char.isAlpha Char.isDigit "Vol. 1: Chapter #5!".toList
        = "Vol. 1 Chapter 5".toList := by
  refine ⟨stripWs_sublist _, ?_, by decide⟩
  rw [List.all_eq_true]
  intro x hx
  exact (List.mem_filter.mp ((stripWs_sublist _).subset hx)).2

/-- Claim C8, counterexample: `get_pages` does not return one URL per
detected image element: an image element with none of the three source
attributes contributes nothing. -/
theorem get_pages_cex :
    (get_pages [⟨none, none, none⟩]).length ≠ ([⟨none, none, none⟩] : List ImgElem).length := by
  decide

/-- Claim C8, amended: `get_pages` returns one URL per detected image
element that has at least one present-and-nonempty source attribute,
in page order, resolved as the first such attribute among data-src,
data-lazy-src and src, whitespace-trimmed; elements whose three
candidates are all absent or empty are skipped. -/
theorem get_pages_first_truthy (imgs : List ImgElem) :
    get_pages imgs = imgs.filterMap (fun i => (firstNonEmptySrc i).map stripWs) := by
  unfold get_pages
  congr 1
  funext i
  exact pageOfImg_eq i

end ThreeAsq
